import Mathlib

set_option linter.unnecessarySeqFocus false
set_option maxRecDepth 8000
set_option linter.unusedVariables false

/-!
Shallow embedding of the VCTT-AGI core (vctt_agi/modules/{sim,cam,ctm,sre,ril}.py
and vctt_agi/orchestrator/pipeline.py).

Modelling conventions:
* Python floats are modelled as exact rationals (`ℚ`); every numeric constant in
  the source is a short decimal literal, which `OfScientific` represents exactly.
* Python dicts fed across module boundaries are modelled as structures whose
  fields are `Option`-valued exactly where the source reads them with `.get`
  (a missing key is `none`); fields read by direct indexing (`d["k"]`) are kept
  `Option`-valued and the read is modelled in the `Except` monad, erroring with
  the missing key's name, mirroring Python's `KeyError`.
* The raw input text is abstracted by `TextStats`: the exact counts and flags
  the modules extract from it (lexicon hits, punctuation counts, pattern
  co-occurrence).  Every concrete text determines one `TextStats` value, so a
  statement quantified over all `TextStats` covers all texts.
* Mutable per-module state (trust history, mode history, last metrics) is
  modelled by explicit state passing; log statements and timestamps are elided.
-/

/-- Decidable equality for `Except`, used to evaluate fallible module calls
on concrete inputs. -/
instance {ε α : Type} [DecidableEq ε] [DecidableEq α] : DecidableEq (Except ε α) :=
  fun x y =>
    match x, y with
    | .ok a, .ok b =>
      if h : a = b then isTrue (by rw [h])
      else isFalse (by intro hh; cases hh; exact h rfl)
    | .ok _, .error _ => isFalse (by intro hh; cases hh)
    | .error _, .ok _ => isFalse (by intro hh; cases hh)
    | .error a, .error b =>
      if h : a = b then isTrue (by rw [h])
      else isFalse (by intro hh; cases hh; exact h rfl)

namespace VCTT

/-- Clamp a rational to the closed interval [0,1]; the source's
`max(0.0, min(1.0, x))` idiom. -/
def clamp01 (x : ℚ) : ℚ := max 0 (min 1 x)

/-- Features the SIM and CAM modules extract from the raw input text.
Each field is the value of one counting/containment expression in the source:
`conflictWordCount` is `sum(1 for word in conflict_words if word in text.lower())`,
`spacedButCount` is `text.lower().count(" but ")`, the `has...` flags are the
case-insensitive substring tests of CAM's negation/affirmation pattern table,
and so on.  Counts are naturals, flags are booleans. -/
structure TextStats where
  conflictWordCount : ℕ
  uncertaintyWordCount : ℕ
  emotionalWordCount : ℕ
  exclamationCount : ℕ
  questionCount : ℕ
  upperWordCount : ℕ
  multiPunctCount : ℕ
  hasNot : Bool
  hasBut : Bool
  hasNever : Bool
  hasAlways : Bool
  hasNone : Bool
  hasAll : Bool
  hasImpossible : Bool
  hasPossible : Bool
  spacedButCount : ℕ
deriving DecidableEq

/-- All-zero text features (the empty text). -/
def TextStats.zero : TextStats :=
  ⟨0, 0, 0, 0, 0, 0, 0, false, false, false, false, false, false, false, false, 0⟩

/-- One entry of the analyst's `fallacies` list; the source reads only
`fallacy.get("type")`. -/
structure Fallacy where
  ftype : Option String
deriving DecidableEq

/-- The analyst result's `strength` sub-dict: `rating` and `score`. -/
structure Strength where
  rating : Option String
  score : Option ℚ
deriving DecidableEq

instance : Inhabited Strength := ⟨⟨none, none⟩⟩

/-- The analyst result's `structure` sub-dict: `validity` and `soundness`. -/
structure StructInfo where
  validity : Option String
  soundness : Option String
deriving DecidableEq

instance : Inhabited StructInfo := ⟨⟨none, none⟩⟩

/-- The analyst producer's `result` dict, with exactly the keys the core
modules read: `structure`, `fallacies`, `strength`. -/
structure AnalystResult where
  struct : Option StructInfo
  fallacies : Option (List Fallacy)
  strength : Option Strength
deriving DecidableEq

instance : Inhabited AnalystResult := ⟨⟨none, none, none⟩⟩

/-- The analyst producer's output dict (`AgentOutput.to_dict()`): the core
modules read `confidence` and `result`. -/
structure AnalystOutput where
  confidence : Option ℚ
  result : Option AnalystResult
deriving DecidableEq

/-- One entry of the relationship producer's `relationships` list; the core
reads `source`, `target` and `type`. -/
structure RelRec where
  source : Option String
  target : Option String
  rtype : Option String
deriving DecidableEq

instance : Inhabited RelRec := ⟨⟨none, none, none⟩⟩

/-- One entry of the relationship producer's `concepts` list; RIL reads
`id` and `name`. -/
structure ConceptRec where
  id : Option String
  name : Option String
deriving DecidableEq

/-- The relationship producer's `graph_metrics` dict read by CTM. -/
structure GraphMetrics where
  node_count : Option ℕ
  edge_count : Option ℕ
  density : Option ℚ
deriving DecidableEq

instance : Inhabited GraphMetrics := ⟨⟨none, none, none⟩⟩

/-- The relationship producer's `result` dict. -/
structure RelationalResult where
  concepts : Option (List ConceptRec)
  relationships : Option (List RelRec)
  graph_metrics : Option GraphMetrics
deriving DecidableEq

instance : Inhabited RelationalResult := ⟨⟨none, none, none⟩⟩

/-- The relationship producer's output dict: `confidence` and `result`. -/
structure RelationalOutput where
  confidence : Option ℚ
  result : Option RelationalResult
deriving DecidableEq

end VCTT

namespace VCTT.SIM

/-- The SIM metric triple (`tension`, `uncertainty`, `emotional_intensity`). -/
structure Metrics where
  tension : ℚ
  uncertainty : ℚ
  emotional_intensity : ℚ
deriving DecidableEq

/-- Zero metrics, SIM's initial `self.metrics`. -/
def Metrics.zero : Metrics := ⟨0, 0, 0⟩

/-- The analyst-dependent tension term, the source's
`if analyst_output and analyst_output.get("result")` block: a capped
fallacy-count bonus, zero when the analyst output or its result is absent. -/
def tension_analyst_bonus (a : Option AnalystOutput) : ℚ :=
  match a with
  | some ao =>
    match ao.result with
    | some r => min (((r.fallacies.getD []).length : ℚ) * 0.15) 0.4
    | none => 0
  | none => 0

/-- SIM `_calculate_tension`: conflict-word hits, analyst fallacies, and
exclamation marks, each term capped, the total capped at 1. -/
def calculate_tension (t : TextStats) (a : Option AnalystOutput) : ℚ :=
  let tension := min ((t.conflictWordCount : ℚ) * 0.1) 0.5
  let tension := tension + tension_analyst_bonus a
  let tension := tension + min ((t.exclamationCount : ℚ) * 0.05) 0.1
  min tension 1

/-- The analyst-dependent uncertainty term: the fixed bonus keyed to the
argument-strength rating (weak 0.3, moderate 0.15, otherwise 0), zero when
the analyst output or its result is absent. -/
def uncertainty_analyst_bonus (a : Option AnalystOutput) : ℚ :=
  match a with
  | some ao =>
    match ao.result with
    | some r =>
      let strength := r.strength.getD default
      if strength.rating = some "weak" then (0.3 : ℚ)
      else if strength.rating = some "moderate" then 0.15
      else 0
    | none => 0
  | none => 0

/-- SIM `_calculate_uncertainty`: hedging-word hits, analyst strength-rating
bonus, and question marks, each term capped, the total capped at 1. -/
def calculate_uncertainty (t : TextStats) (a : Option AnalystOutput) : ℚ :=
  let uncertainty := min ((t.uncertaintyWordCount : ℚ) * 0.1) 0.5
  let uncertainty := uncertainty + uncertainty_analyst_bonus a
  let uncertainty := uncertainty + min ((t.questionCount : ℚ) * 0.08) 0.2
  min uncertainty 1

/-- SIM `_calculate_emotional_intensity`: emotion-word hits, fully-uppercase
words, and `!!!`/`???` substrings, each term capped, the total capped at 1. -/
def calculate_emotional_intensity (t : TextStats) : ℚ :=
  let intensity := min ((t.emotionalWordCount : ℚ) * 0.15) 0.6
  let intensity := intensity + min ((t.upperWordCount : ℚ) * 0.1) 0.2
  let intensity := intensity + min ((t.multiPunctCount : ℚ) * 0.1) 0.2
  min intensity 1

/-- SIM `analyze`: computes the metric triple; the module's only state is the
last computed triple, which equals the return value. -/
def analyze (t : TextStats) (a : Option AnalystOutput) : Metrics :=
  { tension := calculate_tension t a
    uncertainty := calculate_uncertainty t a
    emotional_intensity := calculate_emotional_intensity t }

end VCTT.SIM

namespace VCTT.CAM

/-- A detected `ContradictionRecord`: its type tag and severity.  The
free-text `description` field is elided (never read by any consumer). -/
structure Contradiction where
  ctype : String
  severity : ℚ
deriving DecidableEq

/-- CAM `_detect_text_contradictions`: one textual record per
negation/affirmation pair both of whose members occur in the text, plus one
record when `" but "` occurs more than twice. -/
def detect_text_contradictions (t : TextStats) : List Contradiction :=
  (if t.hasNot && t.hasBut then [⟨"textual", 0.5⟩] else []) ++
  (if t.hasNever && t.hasAlways then [⟨"textual", 0.5⟩] else []) ++
  (if t.hasNone && t.hasAll then [⟨"textual", 0.5⟩] else []) ++
  (if t.hasImpossible && t.hasPossible then [⟨"textual", 0.5⟩] else []) ++
  (if 2 < t.spacedButCount then
      [⟨"textual", min ((t.spacedButCount : ℚ) * 0.15) 0.8⟩]
    else [])

/-- The fixed list of fallacy-type fragments
`["circular reasoning", "contradiction", "inconsistent"]`. -/
def contradiction_fallacies : List String :=
  ["circular reasoning", "contradiction", "inconsistent"]

/-- Whether the first character list is a leading segment of the second. -/
def charsLeading : List Char → List Char → Bool
  | [], _ => true
  | _ :: _, [] => false
  | c :: cs, d :: ds => c = d && charsLeading cs ds

/-- Whether the first character list occurs contiguously inside the second. -/
def charsInside (pat : List Char) : List Char → Bool
  | [] => pat.isEmpty
  | c :: rest => charsLeading pat (c :: rest) || charsInside pat rest

/-- Case-insensitive substring containment, Python's `pat in s.lower()`
for an already-lowercase `pat`. -/
def containsLower (s pat : String) : Bool :=
  charsInside pat.toList s.toLower.toList

/-- Whether a fallacy entry's type contains one of the contradiction
fragments (`any(cf in fallacy.get("type", "").lower() ...)`). -/
def fallacy_matches (f : Fallacy) : Bool :=
  contradiction_fallacies.any (fun cf => containsLower (f.ftype.getD "") cf)

/-- CAM `_detect_logical_contradictions`: severity 0.7 for validity
`"invalid"`, 0.6 for soundness `"unsound"`, and 0.65 per
contradiction-related fallacy. -/
def detect_logical_contradictions (a : AnalystOutput) : List Contradiction :=
  let r := a.result.getD default
  let s := r.struct.getD default
  (if s.validity = some "invalid" then [⟨"logical", 0.7⟩] else []) ++
  (if s.soundness = some "unsound" then [⟨"logical", 0.6⟩] else []) ++
  (r.fallacies.getD []).filterMap (fun f =>
    if fallacy_matches f then some ⟨"logical_fallacy", 0.65⟩ else none)

/-- Lookup in an association list modelling a Python dict. -/
def alookup {κ β : Type} [DecidableEq κ] (k : κ) : List (κ × β) → Option β
  | [] => none
  | (k', v) :: rest => if k' = k then some v else alookup k rest

/-- Insert-or-update in an association list, keeping the original position of
an existing key and appending a new key at the end — Python dict assignment. -/
def aset {κ β : Type} [DecidableEq κ] (k : κ) (v : β) : List (κ × β) → List (κ × β)
  | [] => [(k, v)]
  | (k', v') :: rest => if k' = k then (k, v) :: rest else (k', v') :: aset k v rest

/-- The ordered pair `(rel.get("source"), rel.get("target"))` a relational
record is keyed by. -/
def pairOf (r : RelRec) : Option String × Option String := (r.source, r.target)

/-- CAM `_detect_relational_contradictions`, main loop: walk the relationship
list carrying the `concept_pairs` dict; when the current pair is already
present with a stored type different from the current record's type, emit one
relational record with severity 0.5; the stored type is then overwritten
unconditionally. -/
def detect_relational_aux :
    List RelRec → List ((Option String × Option String) × Option String) →
    List Contradiction
  | [], _ => []
  | rel :: rest, seen =>
    let emitted :=
      match alookup (pairOf rel) seen with
      | some t => if t ≠ rel.rtype then [⟨"relational", (0.5 : ℚ)⟩] else []
      | none => []
    emitted ++ detect_relational_aux rest (aset (pairOf rel) rel.rtype seen)

/-- CAM `_detect_relational_contradictions`. -/
def detect_relational_contradictions (ro : RelationalOutput) : List Contradiction :=
  detect_relational_aux ((ro.result.getD default).relationships.getD []) []

/-- CAM `_calculate_score`: zero records give 0.0; otherwise the average
severity times a count bonus `min(1 + 0.1*(count-1), 1.5)`, capped at 1. -/
def calculate_score (cs : List Contradiction) : ℚ :=
  if cs.isEmpty then 0
  else
    let total := (cs.map Contradiction.severity).sum
    let count := cs.length
    let base := total / (count : ℚ)
    let multiplier := min (1 + ((count : ℚ) - 1) * 0.1) 1.5
    min (base * multiplier) 1

/-- CAM `analyze`'s return value: the score and the detected batch. -/
structure CAMResult where
  contradiction_score : ℚ
  contradictions : List Contradiction
deriving DecidableEq

/-- CAM `analyze`: textual, logical (iff an analyst output is given) and
relational (iff a relational output is given) passes, then the score. -/
def analyze (t : TextStats) (a : Option AnalystOutput)
    (ro : Option RelationalOutput) : CAMResult :=
  let detected :=
    detect_text_contradictions t ++
    (match a with
     | some ao => detect_logical_contradictions ao
     | none => []) ++
    (match ro with
     | some r => detect_relational_contradictions r
     | none => [])
  { contradiction_score := calculate_score detected
    contradictions := detected }

end VCTT.CAM

namespace VCTT.CTM

/-- The returned `factors` map: the three optional quality factors plus the
always-present (negated) contradiction penalty. -/
structure Factors where
  analyst : Option ℚ
  relational : Option ℚ
  situational : Option ℚ
  contradiction_penalty : ℚ
deriving DecidableEq

/-- One trust-history entry: the score and a copy of the factor map
(the timestamp is elided). -/
structure HistEntry where
  score : ℚ
  factors : Factors
deriving DecidableEq

/-- CTM's mutable state: the last trust score and the append-only history. -/
structure State where
  trust_score : ℚ
  trust_history : List HistEntry
deriving DecidableEq

/-- CTM's initial state: neutral trust 0.5, empty history. -/
def State.init : State := ⟨0.5, []⟩

/-- CTM `calculate_trust`'s return value. -/
structure TrustResult where
  trust_score : ℚ
  factors : Factors
  trend : String
deriving DecidableEq

/-- CTM `_calculate_analyst_trust`: average of confidence and strength score,
minus a capped fallacy penalty, plus 0.1 for a valid structure, clamped. -/
def calculate_analyst_trust (a : AnalystOutput) : ℚ :=
  let r := a.result.getD default
  let trust := a.confidence.getD 0.5
  let strength := r.strength.getD default
  let trust := (trust + strength.score.getD 0.5) / 2
  let trust := trust - min (((r.fallacies.getD []).length : ℚ) * 0.1) 0.3
  let s := r.struct.getD default
  let trust := if s.validity = some "valid" then trust + 0.1 else trust
  clamp01 trust

/-- CTM `_calculate_relational_trust`: the producer's confidence plus 0.1
bonuses for node count, edge count, and density in [0.2, 0.7], clamped. -/
def calculate_relational_trust (ro : RelationalOutput) : ℚ :=
  let r := ro.result.getD default
  let trust := ro.confidence.getD 0.5
  let gm := r.graph_metrics.getD default
  let node_count := gm.node_count.getD 0
  let edge_count := gm.edge_count.getD 0
  let trust := if 3 ≤ node_count then trust + 0.1 else trust
  let trust := if 2 ≤ edge_count then trust + 0.1 else trust
  let density := gm.density.getD 0
  let trust := if 0.2 ≤ density ∧ density ≤ 0.7 then trust + 0.1 else trust
  clamp01 trust

/-- CTM `_calculate_situational_trust`: 0.6 minus tension and uncertainty
penalties, minus 0.15 for extreme emotional intensity, clamped. -/
def calculate_situational_trust (m : SIM.Metrics) : ℚ :=
  let trust := (0.6 : ℚ)
  let trust := trust - m.tension * 0.3
  let trust := trust - m.uncertainty * 0.4
  let trust :=
    if 0.7 < m.emotional_intensity ∨ m.emotional_intensity < 0.1 then
      trust - 0.15
    else trust
  clamp01 trust

/-- The weighted factor sum `sum(factors.get(k, 0.5) * v for k, v in
weights.items())` with weights analyst 0.35, relational 0.25,
situational 0.25; a missing factor defaults to 0.5; the penalty entry is not
a weight key and so does not participate. -/
def weighted_sum (f : Factors) : ℚ :=
  (f.analyst.getD 0.5) * 0.35 + (f.relational.getD 0.5) * 0.25 +
    (f.situational.getD 0.5) * 0.25

/-- CTM `_calculate_trend` evaluated after the append: compares the current
score with the last pre-existing entry; fewer than two entries give
"stable". -/
def trend_of (prevHist : List HistEntry) (current : ℚ) : String :=
  match prevHist.getLast? with
  | none => "stable"
  | some e =>
    let d := current - e.score
    if 0.1 < d then "increasing"
    else if d < -0.1 then "decreasing"
    else "stable"

/-- CTM `calculate_trust`: builds the factor map from whichever inputs are
present, records the negated penalty, computes
`clamp(weighted_sum - contradiction_penalty)`, appends to history, and
reports the trend. -/
def calculate_trust (a : Option AnalystOutput) (ro : Option RelationalOutput)
    (sm : Option SIM.Metrics) (contradiction_score : ℚ) (st : State) :
    TrustResult × State :=
  let contradiction_penalty := contradiction_score * 0.5
  let factors : Factors :=
    { analyst := a.map calculate_analyst_trust
      relational := ro.map calculate_relational_trust
      situational := sm.map calculate_situational_trust
      contradiction_penalty := -contradiction_penalty }
  let trust := clamp01 (weighted_sum factors - contradiction_penalty)
  let result : TrustResult :=
    { trust_score := trust
      factors := factors
      trend := trend_of st.trust_history trust }
  (result,
   { trust_score := trust
     trust_history := st.trust_history ++ [⟨trust, factors⟩] })

end VCTT.CTM

namespace VCTT.SRE

/-- The three regulation modes. -/
inductive Mode where
  | normal
  | clarify
  | slow_down
deriving DecidableEq

/-- A `RegulationTransition` history entry. -/
structure Transition where
  fromMode : Mode
  toMode : Mode
  reason : String
deriving DecidableEq

/-- SRE's mutable state: the current mode and the transition history. -/
structure State where
  mode : Mode
  mode_history : List Transition
deriving DecidableEq

/-- SRE's initial state: mode `normal`, empty history. -/
def State.init : State := ⟨.normal, []⟩

/-- The `slow_down` guard of `_determine_mode`:
`uncertainty > 0.7 or contradiction_score > 0.6 or emotional_intensity > 0.8
or trust_score < 0.3`. -/
def slow_condition (m : SIM.Metrics) (contradiction_score trust_score : ℚ) : Bool :=
  decide (0.7 < m.uncertainty) || decide (0.6 < contradiction_score) ||
  decide (0.8 < m.emotional_intensity) || decide (trust_score < 0.3)

/-- The `clarify` guard of `_determine_mode`:
`uncertainty > 0.5 or contradiction_score > 0.4 or trust_score < 0.5
or tension > 0.6`. -/
def clarify_condition (m : SIM.Metrics) (contradiction_score trust_score : ℚ) : Bool :=
  decide (0.5 < m.uncertainty) || decide (0.4 < contradiction_score) ||
  decide (trust_score < 0.5) || decide (0.6 < m.tension)

/-- SRE `_determine_mode`: the two guards in strict priority order, else
`normal`. -/
def determine_mode (m : SIM.Metrics) (contradiction_score trust_score : ℚ) : Mode :=
  if slow_condition m contradiction_score trust_score then .slow_down
  else if clarify_condition m contradiction_score trust_score then .clarify
  else .normal

/-- SRE `_get_mode_change_reason`: the comma-joined list of currently true
trigger conditions, or "metrics stabilized" when none hold. -/
def mode_change_reason (m : SIM.Metrics) (contradiction_score trust_score : ℚ) : String :=
  let reasons :=
    (if 0.6 < m.uncertainty then ["high uncertainty"] else []) ++
    (if 0.5 < contradiction_score then ["contradictions detected"] else []) ++
    (if trust_score < 0.4 then ["low trust"] else []) ++
    (if 0.7 < m.tension then ["high tension"] else []) ++
    (if 0.7 < m.emotional_intensity then ["high emotional intensity"] else [])
  if reasons.isEmpty then "metrics stabilized" else String.intercalate ", " reasons

/-- SRE `_get_mode_rationale`: the fixed mode-keyed sentence. -/
def mode_rationale (mode : Mode) : String :=
  match mode with
  | .slow_down =>
    "Processing complexity requires careful consideration. Taking additional time to analyze."
  | .clarify =>
    "Ambiguity or inconsistencies detected. Seeking clarification to improve understanding."
  | .normal => "Conditions are stable. Proceeding with normal processing."

/-- SRE `regulate`'s return value. -/
structure RegResult where
  mode : Mode
  previous_mode : Mode
  mode_changed : Bool
  rationale : String
deriving DecidableEq

/-- SRE `regulate`: computes the new mode, appends a transition to the
history exactly when the mode changed, and returns the mode, the previous
mode, the change flag, and the rationale for the new mode. -/
def regulate (st : State) (m : SIM.Metrics) (contradiction_score trust_score : ℚ) :
    RegResult × State :=
  let previous_mode := st.mode
  let mode := determine_mode m contradiction_score trust_score
  let history :=
    if mode ≠ previous_mode then
      st.mode_history ++
        [⟨previous_mode, mode, mode_change_reason m contradiction_score trust_score⟩]
    else st.mode_history
  ({ mode := mode
     previous_mode := previous_mode
     mode_changed := mode ≠ previous_mode
     rationale := mode_rationale mode },
   { mode := mode, mode_history := history })

end VCTT.SRE

namespace VCTT.RIL

/-- A missing dict key, modelling the payload of a Python `KeyError` raised
by direct indexing in RIL. -/
abbrev KeyErr := String

/-- Read an `Option` field that the source accesses by direct indexing
(`d[key]`), erroring with the key's name when it is absent. -/
def keyOf {α : Type} (o : Option α) (key : String) : Except KeyErr α :=
  match o with
  | some v => .ok v
  | none => .error key

/-- A relationship as stored in the adjacency lists after its `source` and
`target` have been read (the only fields RIL reads from it afterwards). -/
structure Edge where
  source : String
  target : String
deriving DecidableEq

/-- RIL's internal graph: node map by concept id and forward/reverse
adjacency lists, all insertion-ordered Python dicts. -/
structure Graph where
  nodes : List (String × ConceptRec)
  edges : List (String × List Edge)
  reverse_edges : List (String × List Edge)
deriving DecidableEq

/-- The node-map comprehension `{c["id"]: c for c in concepts}`: every
concept's `id` is read (erroring when absent), later duplicates overwrite
the stored concept but keep the first occurrence's position. -/
def build_nodes : List ConceptRec → List (String × ConceptRec) →
    Except KeyErr (List (String × ConceptRec))
  | [], acc => .ok acc
  | c :: rest, acc =>
    match c.id with
    | none => .error "id"
    | some i => build_nodes rest (CAM.aset i c acc)

/-- Append an edge to a dict-of-lists entry, creating the entry at the end
when the key is new (`if source not in graph["edges"]: ... append`). -/
def append_edge (k : String) (e : Edge) (d : List (String × List Edge)) :
    List (String × List Edge) :=
  match CAM.alookup k d with
  | some l => CAM.aset k (l ++ [e]) d
  | none => d ++ [(k, [e])]

/-- The adjacency-building loop of `_build_graph`: reads each relationship's
`source` and `target` by direct indexing (in that order) and appends to the
forward and reverse adjacency dicts. -/
def build_edges : List RelRec → List (String × List Edge) →
    List (String × List Edge) →
    Except KeyErr (List (String × List Edge) × List (String × List Edge))
  | [], eacc, racc => .ok (eacc, racc)
  | rel :: rest, eacc, racc =>
    match rel.source with
    | none => .error "source"
    | some s =>
      match rel.target with
      | none => .error "target"
      | some t =>
        build_edges rest (append_edge s ⟨s, t⟩ eacc) (append_edge t ⟨s, t⟩ racc)

/-- RIL `_build_graph`. -/
def build_graph (concepts : List ConceptRec) (relationships : List RelRec) :
    Except KeyErr Graph := do
  let nodes ← build_nodes concepts []
  let (edges, reverse_edges) ← build_edges relationships [] []
  pure ⟨nodes, edges, reverse_edges⟩

/-- An inferred transitive relationship record. -/
structure InfRel where
  source : String
  target : String
  rtype : String
  path : List String
  confidence : ℚ
deriving DecidableEq

/-- The full enumeration of `_infer_transitive` before the 10-edge
truncation: for each source in dict order, each of its edges, each onward
edge of the intermediate, emit when the final target differs from the source
and no direct edge in the source's own adjacency list reaches it.  The
source's `if intermediate in edges` membership guard is rendered as the
empty-list default of the lookup: a missing intermediate contributes no
iterations. -/
def infer_transitive_all (g : Graph) : List InfRel :=
  g.edges.flatMap (fun p =>
    p.2.flatMap (fun e =>
      ((CAM.alookup e.target g.edges).getD []).filterMap (fun ne =>
        if ne.target ≠ p.1 ∧ ¬ p.2.any (fun d => d.target = ne.target) then
          some ⟨p.1, ne.target, "transitive", [p.1, e.target, ne.target], 0.6⟩
        else none)))

/-- RIL `_infer_transitive`: the enumeration truncated to its first 10
entries (`return inferred[:10]`). -/
def infer_transitive (g : Graph) : List InfRel :=
  (infer_transitive_all g).take 10

/-- One BFS step of `_find_path`: pop the queue front; skip over-depth or
visited nodes; otherwise scan the node's edges, returning as soon as the
searched node appears, and enqueue unvisited targets.  The `fuel` argument
only bounds the recursion; `find_path` supplies fuel that the loop can never
exhaust, so the fuelled function coincides with the source's loop. -/
def bfs (g : Graph) (goal : String) :
    ℕ → List (String × List String) → List String → Option (List String)
  | 0, _, _ => none
  | _ + 1, [], _ => none
  | fuel + 1, (node, path) :: queue, visited =>
    if 3 < path.length then bfs g goal fuel queue visited
    else if node ∈ visited then bfs g goal fuel queue visited
    else
      let visited := node :: visited
      match CAM.alookup node g.edges with
      | none => bfs g goal fuel queue visited
      | some nodeEdges => bfsScan g goal fuel nodeEdges queue visited path
where
  /-- The inner `for edge in edges[node]` loop. -/
  bfsScan (g : Graph) (goal : String) (fuel : ℕ) :
      List Edge → List (String × List String) → List String → List String →
      Option (List String)
  | [], queue, visited, _ => bfs g goal fuel queue visited
  | e :: rest, queue, visited, path =>
    if e.target = goal then some (path ++ [e.target])
    else if e.target ∈ visited then bfsScan g goal fuel rest queue visited path
    else bfsScan g goal fuel rest (queue ++ [(e.target, path ++ [e.target])]) visited path

/-- Total number of stored forward edges; every node is dequeued past the
guards at most once and then enqueues at most its out-degree of entries, so
`1 + edge count` pops can never be exceeded and `2 + edge count` fuel always
suffices. -/
def total_edge_count (g : Graph) : ℕ :=
  (g.edges.map (fun p => p.2.length)).sum

/-- RIL `_find_path`: equal endpoints short-circuit, otherwise BFS with max
depth 3 from a queue seeded with the start node. -/
def find_path (g : Graph) (start goal : String) : Option (List String) :=
  if start = goal then some [start]
  else bfs g goal (2 + total_edge_count g) [(start, [start])] []

/-- One reasoning-path record (`start`/`end` display names, the id path,
and its length). -/
structure PathRec where
  startName : String
  endName : String
  path : List String
  length : ℕ
deriving DecidableEq

/-- One candidate pair of `_find_reasoning_paths`: read both ids (erroring
when absent), search, and on success read both display names. -/
def path_pair (g : Graph) (sc ec : ConceptRec) : Except KeyErr (Option PathRec) := do
  let sid ← keyOf sc.id "id"
  let eid ← keyOf ec.id "id"
  match find_path g sid eid with
  | some p => do
    let sname ← keyOf sc.name "name"
    let ename ← keyOf ec.name "name"
    pure (some ⟨sname, ename, p, p.length⟩)
  | none => pure none

/-- The inner loop over the up-to-two subsequent candidate concepts. -/
def paths_inner (g : Graph) (sc : ConceptRec) :
    List ConceptRec → Except KeyErr (List PathRec)
  | [] => .ok []
  | ec :: rest => do
    let o ← path_pair g sc ec
    let more ← paths_inner g sc rest
    pure (o.toList ++ more)

/-- The outer loop over the first three concepts, each paired with
`concepts[i+1:i+3]`. -/
def paths_outer (g : Graph) (all : List ConceptRec) :
    List (ℕ × ConceptRec) → Except KeyErr (List PathRec)
  | [] => .ok []
  | (i, sc) :: rest => do
    let here ← paths_inner g sc ((all.drop (i + 1)).take 2)
    let more ← paths_outer g all rest
    pure (here ++ more)

/-- RIL `_find_reasoning_paths`: nothing for fewer than two concepts,
otherwise the bounded candidate-pair search. -/
def find_reasoning_paths (g : Graph) (concepts : List ConceptRec) :
    Except KeyErr (List PathRec) :=
  if concepts.length < 2 then .ok []
  else paths_outer g concepts (concepts.take 3).enum

/-- One ranked key concept. -/
structure KeyNode where
  id : String
  name : String
  degree : ℕ
  importance : ℚ
deriving DecidableEq

/-- The collection loop of `_identify_key_nodes`: every node with positive
total degree contributes a record whose `name` is read by direct indexing. -/
def key_nodes_collect (g : Graph) : List (String × ConceptRec) →
    Except KeyErr (List KeyNode)
  | [] => .ok []
  | (nid, c) :: rest =>
    let out_degree := ((CAM.alookup nid g.edges).getD []).length
    let in_degree := ((CAM.alookup nid g.reverse_edges).getD []).length
    let total := out_degree + in_degree
    if 0 < total then do
      let nm ← keyOf c.name "name"
      let more ← key_nodes_collect g rest
      pure (⟨nid, nm, total, min ((total : ℚ) / 5) 1⟩ :: more)
    else key_nodes_collect g rest

/-- Insert a node into a descending-by-degree sorted list, after any
already-placed node of equal degree (preserving the stability of Python's
`sort(reverse=True)`). -/
def insert_desc (x : KeyNode) : List KeyNode → List KeyNode
  | [] => [x]
  | y :: ys => if x.degree ≤ y.degree then y :: insert_desc x ys else x :: y :: ys

/-- Stable descending-by-degree sort: extensionally the unique reordering
that is sorted descending by degree with ties kept in original order, which
is what Python's stable `key_nodes.sort(key=..., reverse=True)` produces. -/
def sort_desc (l : List KeyNode) : List KeyNode :=
  l.foldl (fun acc x => insert_desc x acc) []

/-- RIL `_identify_key_nodes`: collect, stably sort descending by degree
(Python's stable `sort(reverse=True)`), return the top 5. -/
def identify_key_nodes (g : Graph) : Except KeyErr (List KeyNode) := do
  let raw ← key_nodes_collect g g.nodes
  pure ((sort_desc raw).take 5)

/-- RIL `infer`'s return value (`graph_structure` is flattened into the
three count fields). -/
structure InferResult where
  inferred_relationships : List InfRel
  reasoning_paths : List PathRec
  key_concepts : List KeyNode
  node_count : ℕ
  edge_count : ℕ
  inferred_edge_count : ℕ
deriving DecidableEq

/-- RIL `infer`: build the graph, run the transitive pass, the bounded path
search and the key-node ranking, and report the structure counts.  The
unused `context` argument and the never-populated inference cache are
elided. -/
def infer (concepts : List ConceptRec) (relationships : List RelRec) :
    Except KeyErr InferResult := do
  let g ← build_graph concepts relationships
  let transitive := infer_transitive g
  let paths ← find_reasoning_paths g concepts
  let key ← identify_key_nodes g
  pure ⟨transitive, paths, key, concepts.length, relationships.length,
    transitive.length⟩

/-- The inferred-relationship list of a run, for stating claims about the
transitive pass through `infer`. -/
def inferredOf (concepts : List ConceptRec) (relationships : List RelRec) :
    Except KeyErr (List InfRel) :=
  (infer concepts relationships).map InferResult.inferred_relationships

end VCTT.RIL

namespace VCTT.Orchestrator

/-- A raised producer exception as the orchestrator's handler sees it:
`str(e)` and `type(e).__name__`. -/
structure PErr where
  message : String
  etype : String
deriving DecidableEq

/-- The orchestrator's `internal_state` dict: last SIM metrics, contradiction
score, regulation mode, and trust score. -/
structure InternalState where
  sim : SIM.Metrics
  contradiction : ℚ
  mode : SRE.Mode
  trust : ℚ
deriving DecidableEq

/-- `_init_internal_state`: zero metrics, zero contradiction, mode normal,
trust 0.5. -/
def init_internal_state : InternalState :=
  ⟨SIM.Metrics.zero, 0, .normal, 0.5⟩

/-- The orchestrator instance's whole mutable state: its `internal_state`
plus the run-scoped state of its owned modules (SIM's last metrics, CAM's
last result, CTM's trust history, SRE's mode history). -/
structure OrchState where
  internal : InternalState
  simSt : SIM.Metrics
  camSt : CAM.CAMResult
  ctmSt : CTM.State
  sreSt : SRE.State
deriving DecidableEq

/-- A freshly constructed orchestrator's state. -/
def OrchState.init : OrchState :=
  ⟨init_internal_state, SIM.Metrics.zero, ⟨0, []⟩, CTM.State.init, SRE.State.init⟩

/-- The `data` payload of a successful run, restricted to the fields the
core produces (session ids, timestamps and the producers' own echoes are
elided). -/
structure ProcessData where
  internal_state : InternalState
  sim : SIM.Metrics
  cam : CAM.CAMResult
  sre : SRE.RegResult
  ctm : CTM.TrustResult
  ril : RIL.InferResult
deriving DecidableEq

/-- `process`'s return value: `{status: success, data}` or
`{status: error, error: {message, type}}`. -/
inductive ProcessResult where
  | success (data : ProcessData)
  | failure (message : String) (etype : String)
deriving DecidableEq

/-- The three external producer calls of one run, as the orchestrator
observes them: each either returns its structured payload or raises.  The
analyst payload is the dict handed to SIM/CAM/CTM; the relational payload is
`relational_output.to_dict()["result"]`; the synthesiser payload is opaque
to the core. -/
structure Producers where
  analyst : Except PErr AnalystOutput
  relational : Except PErr RelationalResult
  synthesis : Except PErr Unit

/-- Orchestrator `process`: the staged pipeline under the single top-level
exception handler.  Every stage mutates the orchestrator state in place as
in the source (`self.internal_state["sim"] = ...` and the modules' own
state), and a raise at any point returns an error result while keeping all
mutations made so far. -/
def process (st : OrchState) (t : TextStats) (prod : Producers) :
    ProcessResult × OrchState :=
  match prod.analyst with
  | .error e => (.failure e.message e.etype, st)
  | .ok analyst_output =>
    -- Stage 2: SIM
    let sim_metrics := SIM.analyze t (some analyst_output)
    let st := { st with simSt := sim_metrics,
                        internal := { st.internal with sim := sim_metrics } }
    -- Stage 2: CAM
    let cam_result := CAM.analyze t (some analyst_output) none
    let st := { st with camSt := cam_result,
                        internal := { st.internal with
                          contradiction := cam_result.contradiction_score } }
    -- Stage 2: CTM (needs SIM and CAM results)
    let (ctm_result, ctmSt) := CTM.calculate_trust (some analyst_output) none
      (some sim_metrics) cam_result.contradiction_score st.ctmSt
    let st := { st with ctmSt := ctmSt,
                        internal := { st.internal with
                          trust := ctm_result.trust_score } }
    -- Stage 2: SRE (needs all module metrics)
    let (sre_result, sreSt) := SRE.regulate st.sreSt sim_metrics
      cam_result.contradiction_score ctm_result.trust_score
    let st := { st with sreSt := sreSt,
                        internal := { st.internal with mode := sre_result.mode } }
    -- Stage 3: relational producer, then RIL
    match prod.relational with
    | .error e => (.failure e.message e.etype, st)
    | .ok relational_result =>
      match RIL.infer (relational_result.concepts.getD [])
          (relational_result.relationships.getD []) with
      | .error k => (.failure k "KeyError", st)
      | .ok ril_result =>
        -- Stage 4: synthesiser producer
        match prod.synthesis with
        | .error e => (.failure e.message e.etype, st)
        | .ok _ =>
          (.success ⟨st.internal, sim_metrics, cam_result, sre_result,
            ctm_result, ril_result⟩, st)

/-- Orchestrator `get_internal_state`. -/
def get_internal_state (st : OrchState) : InternalState := st.internal

/-- Orchestrator `reset_state`. -/
def reset_state (st : OrchState) : OrchState :=
  { st with internal := init_internal_state }

end VCTT.Orchestrator

namespace VCTT.CAM

/-- Declarative reading of the relational pass's stored type, used for the
refinement statement: the `type` of the last earlier relationship with the
same `(source, target)` pair, if any.  (The source overwrites
`concept_pairs[pair]` on every occurrence, so the stored type at any point
is the most recently seen one, not the first seen.) -/
def lastTypeFor (prev : List RelRec) (p : Option String × Option String) :
    Option (Option String) :=
  ((prev.filter (fun r => decide (pairOf r = p))).getLast?).map RelRec.rtype

/-- Declarative emission criterion for one relationship given all earlier
ones: some earlier relationship has the same pair, and the most recently
seen type for the pair differs from this record's type. -/
def emits_at (prev : List RelRec) (r : RelRec) : Bool :=
  match lastTypeFor prev (pairOf r) with
  | some t => decide (t ≠ r.rtype)
  | none => false

/-- Declarative count of relational contradiction records over a
relationship list, accumulating the already-scanned preceding records. -/
def relational_record_count : List RelRec → List RelRec → ℕ
  | _, [] => 0
  | prev, r :: rest =>
    (if emits_at prev r then 1 else 0) + relational_record_count (prev ++ [r]) rest

end VCTT.CAM

namespace VCTT.RIL

/-- A node's own forward adjacency list (empty when the node has no
outgoing edges). -/
def edges_of (g : Graph) (a : String) : List Edge :=
  (CAM.alookup a g.edges).getD []

/-- The keys of an association list. -/
def keys {β : Type} (d : List (String × β)) : List String := d.map Prod.fst

/-- No key occurs twice, the defining invariant of a Python dict's
association-list model. -/
def NodupKeys {β : Type} (d : List (String × β)) : Prop := (keys d).Nodup

end VCTT.RIL

namespace VCTT.Examples

open VCTT.Orchestrator

/-- Text features of the single-character text `"!"`. -/
def bangText : TextStats := { TextStats.zero with exclamationCount := 1 }

/-- A producer triple whose analyst succeeds with an empty record and whose
relationship producer raises `RuntimeError("boom")`. -/
def relational_failure : Producers :=
  ⟨.ok ⟨none, none⟩, .error ⟨"boom", "RuntimeError"⟩, .ok ()⟩

/-- Three relationships on the one ordered pair `(a, b)` with types
X, Y, X — the relational-pass counterexample input. -/
def xyxRels : List RelRec :=
  [⟨some "a", some "b", some "X"⟩,
   ⟨some "a", some "b", some "Y"⟩,
   ⟨some "a", some "b", some "X"⟩]

/-- The relational producer output wrapping `xyxRels`. -/
def xyxOutput : RelationalOutput := ⟨none, some ⟨none, some xyxRels, none⟩⟩

/-- Concepts A, B, C with display names. -/
def conceptsABC : List ConceptRec :=
  [⟨some "A", some "A name"⟩, ⟨some "B", some "B name"⟩, ⟨some "C", some "C name"⟩]

/-- The chain A→B, B→C. -/
def relsChain : List RelRec :=
  [⟨some "A", some "B", some "causes"⟩, ⟨some "B", some "C", some "causes"⟩]

/-- The chain A→B, B→C plus a direct A→C relationship. -/
def relsChainDirect : List RelRec :=
  relsChain ++ [⟨some "A", some "C", some "direct"⟩]

/-- Concepts A, B, B2, C: two intermediates between A and C. -/
def conceptsDup : List ConceptRec :=
  [⟨some "A", some "A name"⟩, ⟨some "B", some "B name"⟩,
   ⟨some "B2", some "B2 name"⟩, ⟨some "C", some "C name"⟩]

/-- Relationships A→B, A→B2, B→C, B2→C: both paths from A reach C. -/
def relsDup : List RelRec :=
  [⟨some "A", some "B", some "r"⟩, ⟨some "A", some "B2", some "r"⟩,
   ⟨some "B", some "C", some "r"⟩, ⟨some "B2", some "C", some "r"⟩]

/-- The ten intermediate ids B1..B10 of the crowding-out example. -/
def hubMids : List String :=
  ["B1", "B2", "B3", "B4", "B5", "B6", "B7", "B8", "B9", "B10"]

/-- Concepts for the crowding-out example: hub A, its ten intermediates,
sink C, and a separate chain x→y→z. -/
def conceptsCrowd : List ConceptRec :=
  [⟨some "A", some "A name"⟩] ++
  hubMids.map (fun b => ⟨some b, some b⟩) ++
  [⟨some "C", some "C name"⟩, ⟨some "x", some "x name"⟩,
   ⟨some "y", some "y name"⟩, ⟨some "z", some "z name"⟩]

/-- Relationships A→Bi and Bi→C for the ten intermediates, then x→y, y→z:
eleven transitive candidates in enumeration order, the first ten being
duplicate A→C edges. -/
def relsCrowd : List RelRec :=
  hubMids.map (fun b => ⟨some "A", some b, some "r"⟩) ++
  hubMids.map (fun b => ⟨some b, some "C", some "r"⟩) ++
  [⟨some "x", some "y", some "r"⟩, ⟨some "y", some "z", some "r"⟩]

/-- The inferred record of the x→y→z chain. -/
def xyzInferred : RIL.InfRel := ⟨"x", "z", "transitive", ["x", "y", "z"], 0.6⟩

/-- The ten duplicate A→C records that fill the truncated output of the
crowding-out example. -/
def crowdOutput : List RIL.InfRel :=
  hubMids.map (fun b => ⟨"A", "C", "transitive", ["A", b, "C"], 0.6⟩)

/-- An analyst output reporting validity `"invalid"` and one fallacy. -/
def invalidAnalyst : AnalystOutput :=
  ⟨some 0.8, some ⟨some ⟨some "invalid", none⟩, some [⟨some "hasty"⟩], none⟩⟩

/-- The graph `_build_graph` produces from `conceptsABC`/`relsChain`. -/
def chainGraph : RIL.Graph :=
  ⟨[("A", ⟨some "A", some "A name"⟩), ("B", ⟨some "B", some "B name"⟩),
    ("C", ⟨some "C", some "C name"⟩)],
   [("A", [⟨"A", "B"⟩]), ("B", [⟨"B", "C"⟩])],
   [("B", [⟨"A", "B"⟩]), ("C", [⟨"B", "C"⟩])]⟩

/-- The graph `_build_graph` produces from `conceptsCrowd`/`relsCrowd`:
node map in concept order, forward adjacency keyed by first occurrence of
each source, reverse adjacency keyed by first occurrence of each target. -/
def crowdGraph : RIL.Graph :=
  ⟨[("A", ⟨some "A", some "A name"⟩)] ++
     hubMids.map (fun b => (b, ⟨some b, some b⟩)) ++
     [("C", ⟨some "C", some "C name"⟩), ("x", ⟨some "x", some "x name"⟩),
      ("y", ⟨some "y", some "y name"⟩), ("z", ⟨some "z", some "z name"⟩)],
   [("A", hubMids.map (fun b => ⟨"A", b⟩))] ++
     hubMids.map (fun b => (b, [⟨b, "C"⟩])) ++
     [("x", [⟨"x", "y"⟩]), ("y", [⟨"y", "z"⟩])],
   hubMids.map (fun b => (b, [⟨"A", b⟩])) ++
     [("C", hubMids.map (fun b => ⟨b, "C"⟩)),
      ("y", [⟨"x", "y"⟩]), ("z", [⟨"y", "z"⟩])]⟩

end VCTT.Examples

/-!
Theorems.  Helper lemmas about the embedded definitions come first, then one
theorem per claim (with witnesses and counterexamples where applicable).
-/

namespace VCTT

/-- Values clamped by `clamp01` lie in the unit interval. -/
theorem clamp01_nonneg (x : ℚ) : 0 ≤ clamp01 x := le_max_left 0 _

/-- Values clamped by `clamp01` are at most one. -/
theorem clamp01_le_one (x : ℚ) : clamp01 x ≤ 1 :=
  max_le (by norm_num) (min_le_left 1 x)

end VCTT

namespace VCTT.CAM

/-- Looking up the key just set returns the value just set. -/
theorem alookup_aset_self {κ β : Type} [DecidableEq κ] (k : κ) (v : β) :
    ∀ l : List (κ × β), alookup k (aset k v l) = some v := by
  intro l
  induction l with
  | nil => simp [aset, alookup]
  | cons hd tl ih =>
    by_cases h : hd.1 = k
    · simp [aset, alookup, h]
    · simpa [aset, alookup, h] using ih

/-- Setting one key leaves the lookup of any other key unchanged. -/
theorem alookup_aset_other {κ β : Type} [DecidableEq κ] {k k' : κ} (v : β)
    (h : k' ≠ k) : ∀ l : List (κ × β), alookup k' (aset k v l) = alookup k' l := by
  intro l
  induction l with
  | nil => simp [aset, alookup, fun hh => h hh.symm ∘ Eq.symm, h.symm]
  | cons hd tl ih =>
    by_cases hh : hd.1 = k
    · subst hh
      simp [aset, alookup, h.symm]
    · simp [aset, alookup, hh, ih]

/-- The declarative stored type after scanning one more relationship, at
that relationship's own pair: the new record's type. -/
theorem lastTypeFor_append_self (prev : List RelRec) (r : RelRec) :
    lastTypeFor (prev ++ [r]) (pairOf r) = some r.rtype := by
  simp [lastTypeFor, List.filter_append, List.getLast?_concat]

/-- The declarative stored type after scanning one more relationship is
unchanged at every other pair. -/
theorem lastTypeFor_append_other (prev : List RelRec) (r : RelRec)
    {p : Option String × Option String} (h : p ≠ pairOf r) :
    lastTypeFor (prev ++ [r]) p = lastTypeFor prev p := by
  have : pairOf r ≠ p := fun hh => h hh.symm
  simp [lastTypeFor, List.filter_append, this]

end VCTT.CAM

namespace VCTT.CAM

/-- The relational scanning loop refines the declarative description: when
the carried `concept_pairs` dict agrees with `lastTypeFor` over the already
scanned records, the loop emits exactly the declaratively counted records,
all of them relational with severity 0.5. -/
theorem detect_relational_aux_spec :
    ∀ (rels prev : List RelRec)
      (seen : List ((Option String × Option String) × Option String)),
      (∀ p, alookup p seen = lastTypeFor prev p) →
      detect_relational_aux rels seen =
        List.replicate (relational_record_count prev rels) ⟨"relational", 0.5⟩ := by
  intro rels
  induction rels with
  | nil => intro prev seen _; simp [detect_relational_aux, relational_record_count]
  | cons r rest ih =>
    intro prev seen hinv
    have hseen : ∀ p, alookup p (aset (pairOf r) r.rtype seen) =
        lastTypeFor (prev ++ [r]) p := by
      intro p
      by_cases hp : p = pairOf r
      · subst hp
        rw [alookup_aset_self, lastTypeFor_append_self]
      · rw [alookup_aset_other _ hp, hinv p, lastTypeFor_append_other _ _ hp]
    have htail := ih (prev ++ [r]) _ hseen
    have hcount : relational_record_count prev (r :: rest) =
        (if emits_at prev r then 1 else 0) +
          relational_record_count (prev ++ [r]) rest := rfl
    have haux : detect_relational_aux (r :: rest) seen =
        (match alookup (pairOf r) seen with
          | some t =>
            if t ≠ r.rtype then [(⟨"relational", (0.5 : ℚ)⟩ : Contradiction)] else []
          | none => []) ++
          detect_relational_aux rest (aset (pairOf r) r.rtype seen) := rfl
    rw [haux, htail, hinv (pairOf r), hcount]
    cases h : lastTypeFor prev (pairOf r) with
    | none => simp [emits_at, h]
    | some t =>
      by_cases ht : t = r.rtype
      · simp [emits_at, h, ht]
      · simp [emits_at, h, ht, Nat.one_add, List.replicate_succ]

end VCTT.CAM

namespace VCTT.SIM

/-- The analyst tension bonus is nonnegative. -/
theorem tension_analyst_bonus_nonneg (a : Option AnalystOutput) :
    0 ≤ tension_analyst_bonus a := by
  cases a with
  | none => simp [tension_analyst_bonus]
  | some ao =>
    cases h : ao.result with
    | none => simp [tension_analyst_bonus, h]
    | some r =>
      simp only [tension_analyst_bonus, h]
      exact le_min (by positivity) (by norm_num)

/-- The analyst uncertainty bonus is nonnegative. -/
theorem uncertainty_analyst_bonus_nonneg (a : Option AnalystOutput) :
    0 ≤ uncertainty_analyst_bonus a := by
  cases a with
  | none => simp [uncertainty_analyst_bonus]
  | some ao =>
    cases h : ao.result with
    | none => simp [uncertainty_analyst_bonus, h]
    | some r =>
      simp only [uncertainty_analyst_bonus, h]
      split_ifs <;> norm_num

/-- The tension score is always within the unit interval. -/
theorem calculate_tension_bounds (t : TextStats) (a : Option AnalystOutput) :
    0 ≤ calculate_tension t a ∧ calculate_tension t a ≤ 1 := by
  constructor
  · refine le_min (add_nonneg (add_nonneg (le_min (by positivity) (by norm_num))
      (tension_analyst_bonus_nonneg a)) (le_min (by positivity) (by norm_num)))
      (by norm_num)
  · exact min_le_right _ 1

/-- The uncertainty score is always within the unit interval. -/
theorem calculate_uncertainty_bounds (t : TextStats) (a : Option AnalystOutput) :
    0 ≤ calculate_uncertainty t a ∧ calculate_uncertainty t a ≤ 1 := by
  constructor
  · refine le_min (add_nonneg (add_nonneg (le_min (by positivity) (by norm_num))
      (uncertainty_analyst_bonus_nonneg a)) (le_min (by positivity) (by norm_num)))
      (by norm_num)
  · exact min_le_right _ 1

/-- The emotional-intensity score is always within the unit interval. -/
theorem calculate_emotional_intensity_bounds (t : TextStats) :
    0 ≤ calculate_emotional_intensity t ∧ calculate_emotional_intensity t ≤ 1 := by
  constructor
  · refine le_min (add_nonneg (add_nonneg ?_ ?_) ?_) (by norm_num) <;>
      exact le_min (by positivity) (by norm_num)
  · exact min_le_right _ 1

end VCTT.SIM

namespace VCTT.CAM

/-- Every record of the relational scanning loop is relational with
severity 0.5. -/
theorem detect_relational_aux_mem :
    ∀ (rels : List RelRec) seen c, c ∈ detect_relational_aux rels seen →
      c = (⟨"relational", (0.5 : ℚ)⟩ : Contradiction) := by
  intro rels
  induction rels with
  | nil => intro seen c hc; simp [detect_relational_aux] at hc
  | cons r rest ih =>
    intro seen c hc
    have : detect_relational_aux (r :: rest) seen =
        (match alookup (pairOf r) seen with
          | some t =>
            if t ≠ r.rtype then [(⟨"relational", (0.5 : ℚ)⟩ : Contradiction)] else []
          | none => []) ++
          detect_relational_aux rest (aset (pairOf r) r.rtype seen) := rfl
    rw [this] at hc
    rcases List.mem_append.mp hc with h | h
    · cases halt : alookup (pairOf r) seen with
      | none => rw [halt] at h; simp at h
      | some t =>
        rw [halt] at h
        by_cases ht : t ≠ r.rtype
        · simp [ht] at h; exact h
        · simp [ht] at h
    · exact ih _ c h

/-- Every contradiction record CAM's `analyze` detects has severity at
least 0.45 (textual pattern records and relational records carry 0.5, the
multiple-"but" record carries at least `3 × 0.15`, logical records carry
0.6, 0.65 or 0.7). -/
theorem analyze_severity_lb (t : TextStats) (a : Option AnalystOutput)
    (ro : Option RelationalOutput) :
    ∀ c ∈ (analyze t a ro).contradictions, (0.45 : ℚ) ≤ c.severity := by
  intro c hc
  have hbut : 2 < t.spacedButCount →
      (0.45 : ℚ) ≤ min ((t.spacedButCount : ℚ) * 0.15) 0.8 := by
    intro h3
    refine le_min ?_ (by norm_num)
    have h3' : (3 : ℚ) ≤ (t.spacedButCount : ℚ) := by exact_mod_cast h3
    nlinarith
  have htext : ∀ c' ∈ detect_text_contradictions t, (0.45 : ℚ) ≤ c'.severity := by
    intro c' hc'
    simp only [detect_text_contradictions, List.mem_append] at hc'
    rcases hc' with ((((h | h) | h) | h) | h) <;>
      [skip; skip; skip; skip;
        (split_ifs at h with hcond <;> simp at h
         · rw [h]; exact hbut hcond)] <;>
      (split_ifs at h <;> simp at h <;> rw [h]) <;> norm_num
  have hlog : ∀ (ao : AnalystOutput), ∀ c' ∈ detect_logical_contradictions ao,
      (0.45 : ℚ) ≤ c'.severity := by
    intro ao c' hc'
    simp only [detect_logical_contradictions, List.mem_append] at hc'
    rcases hc' with (h | h) | h
    · split_ifs at h <;> simp at h <;> rw [h] <;> norm_num
    · split_ifs at h <;> simp at h <;> rw [h] <;> norm_num
    · rcases List.mem_filterMap.mp h with ⟨f, _, hf⟩
      split_ifs at hf <;> simp at hf
      rw [← hf]; norm_num
  simp only [analyze, List.mem_append] at hc
  rcases hc with (h | h) | h
  · exact htext c h
  · cases a with
    | none => simp at h
    | some ao => exact hlog ao c h
  · cases ro with
    | none => simp at h
    | some r =>
      rw [detect_relational_aux_mem _ _ c h]
      norm_num

/-- With only nonnegative severities the aggregate contradiction score lies
in the unit interval. -/
theorem calculate_score_bounds (cs : List Contradiction)
    (h : ∀ c ∈ cs, 0 ≤ c.severity) :
    0 ≤ calculate_score cs ∧ calculate_score cs ≤ 1 := by
  unfold calculate_score
  by_cases he : cs.isEmpty
  · simp [he]
  · simp only [he, if_false]
    have hlen : 0 < cs.length := by
      cases cs with
      | nil => simp at he
      | cons _ _ => simp
    have htot : 0 ≤ (cs.map Contradiction.severity).sum := by
      refine List.sum_nonneg ?_
      intro x hx
      rcases List.mem_map.mp hx with ⟨c, hcmem, rfl⟩
      exact h c hcmem
    have hbase : 0 ≤ (cs.map Contradiction.severity).sum / (cs.length : ℚ) :=
      div_nonneg htot (by positivity)
    have hmul : 0 ≤ min (1 + ((cs.length : ℚ) - 1) * 0.1) 1.5 := by
      have h1 : (1 : ℚ) ≤ (cs.length : ℚ) := by exact_mod_cast hlen
      refine le_min ?_ (by norm_num)
      nlinarith
    exact ⟨le_min (mul_nonneg hbase hmul) (by norm_num), min_le_right _ 1⟩

/-- With all severities at least 0.45 and at least one record, the
aggregate contradiction score is at least 0.45. -/
theorem calculate_score_lb (cs : List Contradiction) (hne : ¬ cs.isEmpty)
    (h : ∀ c ∈ cs, (0.45 : ℚ) ≤ c.severity) :
    (0.45 : ℚ) ≤ calculate_score cs := by
  unfold calculate_score
  rw [if_neg hne]
  have hlen : 0 < cs.length := by
    cases cs with
    | nil => simp at hne
    | cons _ _ => simp
  have h1 : (1 : ℚ) ≤ (cs.length : ℚ) := by exact_mod_cast hlen
  have hsum : ∀ (l : List Contradiction), (∀ c ∈ l, (0.45 : ℚ) ≤ c.severity) →
      (0.45 : ℚ) * l.length ≤ (l.map Contradiction.severity).sum := by
    intro l
    induction l with
    | nil => intro _; simp
    | cons hd tl ih =>
      intro hl
      have hhd := hl hd (List.mem_cons_self hd tl)
      have htl := ih (fun c hc => hl c (List.mem_cons_of_mem hd hc))
      simp only [List.map_cons, List.sum_cons, List.length_cons]
      push_cast
      nlinarith
  have hbase : (0.45 : ℚ) ≤ (cs.map Contradiction.severity).sum / (cs.length : ℚ) := by
    rw [le_div_iff₀ (by positivity)]
    exact hsum cs h
  have hmul1 : (1 : ℚ) ≤ min (1 + ((cs.length : ℚ) - 1) * 0.1) 1.5 := by
    refine le_min ?_ (by norm_num)
    nlinarith
  refine le_min ?_ (by norm_num)
  calc (0.45 : ℚ) ≤ (cs.map Contradiction.severity).sum / (cs.length : ℚ) := hbase
    _ = (cs.map Contradiction.severity).sum / (cs.length : ℚ) * 1 := by ring
    _ ≤ (cs.map Contradiction.severity).sum / (cs.length : ℚ) *
          min (1 + ((cs.length : ℚ) - 1) * 0.1) 1.5 := by
        refine mul_le_mul_of_nonneg_left hmul1 ?_
        exact le_trans (by norm_num) hbase

end VCTT.CAM

namespace VCTT

/-- C2: for every text and every (possibly absent) upstream analyst or
relational record, SIM's tension, uncertainty and emotional intensity,
CAM's contradiction score, and CTM's trust score all lie in the closed
interval [0, 1]. -/
theorem C2_scores_in_unit_interval (t : TextStats) (a : Option AnalystOutput)
    (ro : Option RelationalOutput) (sm : Option SIM.Metrics) (cs : ℚ)
    (st : CTM.State) :
    (0 ≤ (SIM.analyze t a).tension ∧ (SIM.analyze t a).tension ≤ 1) ∧
    (0 ≤ (SIM.analyze t a).uncertainty ∧ (SIM.analyze t a).uncertainty ≤ 1) ∧
    (0 ≤ (SIM.analyze t a).emotional_intensity ∧
      (SIM.analyze t a).emotional_intensity ≤ 1) ∧
    (0 ≤ (CAM.analyze t a ro).contradiction_score ∧
      (CAM.analyze t a ro).contradiction_score ≤ 1) ∧
    (0 ≤ (CTM.calculate_trust a ro sm cs st).1.trust_score ∧
      (CTM.calculate_trust a ro sm cs st).1.trust_score ≤ 1) := by
  refine ⟨SIM.calculate_tension_bounds t a, SIM.calculate_uncertainty_bounds t a,
    SIM.calculate_emotional_intensity_bounds t, ?_, ?_⟩
  · exact CAM.calculate_score_bounds _ (fun c hc =>
      le_trans (by norm_num) (CAM.analyze_severity_lb t a ro c hc))
  · exact ⟨clamp01_nonneg _, clamp01_le_one _⟩

end VCTT

namespace VCTT

/-- C6: `regulate` picks `slow_down` exactly when its first guard holds,
`clarify` exactly when the first guard fails and the second holds, and
`normal` exactly when both fail, and on the two documented concrete inputs
it returns `normal` and `slow_down` respectively. -/
theorem C6_regulate_mode_rules (st : SRE.State) (m : SIM.Metrics) (cs ts : ℚ) :
    ((SRE.regulate st m cs ts).1.mode = .slow_down ↔
      (0.7 < m.uncertainty ∨ 0.6 < cs ∨ 0.8 < m.emotional_intensity ∨ ts < 0.3)) ∧
    ((SRE.regulate st m cs ts).1.mode = .clarify ↔
      ((m.uncertainty ≤ 0.7 ∧ cs ≤ 0.6 ∧ m.emotional_intensity ≤ 0.8 ∧ 0.3 ≤ ts) ∧
        (0.5 < m.uncertainty ∨ 0.4 < cs ∨ ts < 0.5 ∨ 0.6 < m.tension))) ∧
    ((SRE.regulate st m cs ts).1.mode = .normal ↔
      ((m.uncertainty ≤ 0.7 ∧ cs ≤ 0.6 ∧ m.emotional_intensity ≤ 0.8 ∧ 0.3 ≤ ts) ∧
        (m.uncertainty ≤ 0.5 ∧ cs ≤ 0.4 ∧ 0.5 ≤ ts ∧ m.tension ≤ 0.6))) ∧
    (SRE.regulate st ⟨0.2, 0.3, 0.4⟩ 0.2 0.7).1.mode = .normal ∧
    (∀ tension : ℚ,
      (SRE.regulate st ⟨tension, 0.75, 0.85⟩ 0.65 0.25).1.mode = .slow_down) := by
  have hslow : ∀ (m' : SIM.Metrics) (cs' ts' : ℚ),
      SRE.slow_condition m' cs' ts' = true ↔
        (0.7 < m'.uncertainty ∨ 0.6 < cs' ∨ 0.8 < m'.emotional_intensity ∨
          ts' < 0.3) := by
    intro m' cs' ts'
    simp [SRE.slow_condition, or_assoc]
  have hslowf : ∀ (m' : SIM.Metrics) (cs' ts' : ℚ),
      SRE.slow_condition m' cs' ts' = false ↔
        (m'.uncertainty ≤ 0.7 ∧ cs' ≤ 0.6 ∧ m'.emotional_intensity ≤ 0.8 ∧
          0.3 ≤ ts') := by
    intro m' cs' ts'
    simp [SRE.slow_condition, not_lt, and_assoc]
  have hclar : ∀ (m' : SIM.Metrics) (cs' ts' : ℚ),
      SRE.clarify_condition m' cs' ts' = true ↔
        (0.5 < m'.uncertainty ∨ 0.4 < cs' ∨ ts' < 0.5 ∨ 0.6 < m'.tension) := by
    intro m' cs' ts'
    simp [SRE.clarify_condition, or_assoc]
  have hclarf : ∀ (m' : SIM.Metrics) (cs' ts' : ℚ),
      SRE.clarify_condition m' cs' ts' = false ↔
        (m'.uncertainty ≤ 0.5 ∧ cs' ≤ 0.4 ∧ 0.5 ≤ ts' ∧ m'.tension ≤ 0.6) := by
    intro m' cs' ts'
    simp [SRE.clarify_condition, not_lt, and_assoc]
  have hmode : ∀ (st' : SRE.State) (m' : SIM.Metrics) (cs' ts' : ℚ),
      (SRE.regulate st' m' cs' ts').1.mode = SRE.determine_mode m' cs' ts' := by
    intro st' m' cs' ts'; rfl
  refine ⟨?_, ?_, ?_, ?_, ?_⟩
  · rw [hmode, ← hslow]
    unfold SRE.determine_mode
    cases hs : SRE.slow_condition m cs ts <;>
      cases hc : SRE.clarify_condition m cs ts <;> simp
  · rw [hmode, ← hslowf, ← hclar]
    unfold SRE.determine_mode
    cases hs : SRE.slow_condition m cs ts <;>
      cases hc : SRE.clarify_condition m cs ts <;> simp
  · rw [hmode, ← hslowf, ← hclarf]
    unfold SRE.determine_mode
    cases hs : SRE.slow_condition m cs ts <;>
      cases hc : SRE.clarify_condition m cs ts <;> simp
  · rw [hmode]
    with_unfolding_all decide
  · intro tension
    rw [hmode]
    have h75 : (0.7 : ℚ) < 0.75 := by norm_num
    unfold SRE.determine_mode SRE.slow_condition
    simp [h75]

end VCTT

namespace VCTT

/-- Witness for C6: on the documented stable input the mode is `normal`. -/
theorem C6_regulate_mode_rules_witness :
    (SRE.regulate SRE.State.init ⟨0.2, 0.3, 0.4⟩ 0.2 0.7).1.mode = .normal :=
  (C6_regulate_mode_rules SRE.State.init SIM.Metrics.zero 0 0).2.2.2.1

/-- C7: the contradiction penalty `contradiction_score × 0.5` is recorded
negated in the returned factor map and subtracted from the weighted factor
sum before clamping; with all three factor inputs absent the trust score at
contradiction 0.8 is 0.025, at contradiction 0 it is 0.425, strictly
larger. -/
theorem C7_contradiction_penalty (st : CTM.State) (cs : ℚ) :
    ((CTM.calculate_trust none none none cs st).1.factors.contradiction_penalty =
      -(cs * 0.5)) ∧
    ((CTM.calculate_trust none none none cs st).1.trust_score =
      clamp01 (CTM.weighted_sum
        (CTM.calculate_trust none none none cs st).1.factors - cs * 0.5)) ∧
    (CTM.calculate_trust none none none 0.8 st).1.trust_score = 0.025 ∧
    (CTM.calculate_trust none none none 0 st).1.trust_score = 0.425 ∧
    (CTM.calculate_trust none none none 0.8 st).1.trust_score <
      (CTM.calculate_trust none none none 0 st).1.trust_score := by
  have heval : ∀ c : ℚ,
      (CTM.calculate_trust none none none c st).1.trust_score =
        clamp01 (0.425 - c * 0.5) := by
    intro c
    show clamp01 (CTM.weighted_sum
      ⟨none, none, none, -(c * 0.5)⟩ - c * 0.5) = clamp01 (0.425 - c * 0.5)
    norm_num [CTM.weighted_sum]
  refine ⟨rfl, rfl, ?_, ?_, ?_⟩
  · rw [heval]; norm_num [clamp01, min_def, max_def]
  · rw [heval]; norm_num [clamp01, min_def, max_def]
  · rw [heval, heval]; norm_num [clamp01, min_def, max_def]

/-- C9: `regulate` computes exactly one current mode, and appends exactly
one transition, from the previously held mode to the newly computed one,
precisely when the two differ. -/
theorem C9_mode_history (st : SRE.State) (m : SIM.Metrics) (cs ts : ℚ) :
    (SRE.regulate st m cs ts).1.mode = SRE.determine_mode m cs ts ∧
    ((SRE.regulate st m cs ts).2).mode = (SRE.regulate st m cs ts).1.mode ∧
    ((SRE.regulate st m cs ts).2).mode_history =
      st.mode_history ++
        (if (SRE.regulate st m cs ts).1.mode = st.mode then []
          else [⟨st.mode, (SRE.regulate st m cs ts).1.mode,
            SRE.mode_change_reason m cs ts⟩]) := by
  refine ⟨rfl, rfl, ?_⟩
  by_cases h : SRE.determine_mode m cs ts = st.mode
  · simp [SRE.regulate, h]
  · simp [SRE.regulate, h]

/-- Witness for C9: a first call moving the fresh engine from `normal` to
`slow_down` appends exactly that transition. -/
theorem C9_mode_history_witness :
    ((SRE.regulate SRE.State.init ⟨0, 0.75, 0.85⟩ 0.65 0.25).2).mode_history =
      [⟨.normal, (SRE.regulate SRE.State.init ⟨0, 0.75, 0.85⟩ 0.65 0.25).1.mode,
        SRE.mode_change_reason ⟨0, 0.75, 0.85⟩ 0.65 0.25⟩] := by
  have h := (C9_mode_history SRE.State.init ⟨0, 0.75, 0.85⟩ 0.65 0.25).2.2
  rw [h]
  rw [if_neg (by with_unfolding_all decide)]
  rfl

end VCTT

namespace VCTT

/-- Counterexample to C3: on the single pair (a, b) seen with types
X, Y, X the relational pass emits two records, not the one record the
claim's first-seen reading predicts (the stored type is overwritten on
every occurrence, so the third record is compared with Y, not with X). -/
theorem C3_counterexample :
    (CAM.detect_relational_contradictions Examples.xyxOutput).length = 2 ∧
    ¬ (CAM.detect_relational_contradictions Examples.xyxOutput).length = 1 := by
  constructor <;> decide

/-- C3 as amended: the relational pass emits one relational record with
severity 0.5 for exactly those relationships whose (source, target) pair
was seen before with a most recently stored type different from the current
one. -/
theorem C3_amended_last_seen (ro : RelationalOutput) :
    CAM.detect_relational_contradictions ro =
      List.replicate
        (CAM.relational_record_count []
          ((ro.result.getD default).relationships.getD []))
        ⟨"relational", 0.5⟩ :=
  CAM.detect_relational_aux_spec _ [] []
    (fun p => by simp [CAM.alookup, CAM.lastTypeFor])

/-- Counterexample to C1: with the text `"!"` and a relationship producer
that raises `RuntimeError("boom")` after the analyst stage succeeded,
`process` returns the structured error result, yet `get_internal_state`
afterwards differs from its value before the call — the failed run's
SIM/CAM/CTM/SRE updates remain visible. -/
theorem C1_counterexample :
    (Orchestrator.process Orchestrator.OrchState.init Examples.bangText
        Examples.relational_failure).1 =
      .failure "boom" "RuntimeError" ∧
    Orchestrator.get_internal_state
        (Orchestrator.process Orchestrator.OrchState.init Examples.bangText
          Examples.relational_failure).2 ≠
      Orchestrator.get_internal_state Orchestrator.OrchState.init := by
  constructor
  · with_unfolding_all decide
  · with_unfolding_all decide

end VCTT

namespace VCTT.Orchestrator

/-- C1 as amended: a failure of the first stage (the analyst producer)
returns the error result with the state untouched, but a failure of the
relationship producer after the module stages have run returns the error
result while the SIM metrics, contradiction score, regulation mode and
trust score committed by those stages stay in `internal_state` and are
returned by `get_internal_state`. -/
theorem C1_amended_partial_commit (st : OrchState) (t : TextStats)
    (a : AnalystOutput) (e : PErr) (sy : Except PErr Unit) :
    (∀ (e' : PErr) (rr : Except PErr RelationalResult) (sy' : Except PErr Unit),
      process st t ⟨.error e', rr, sy'⟩ = (.failure e'.message e'.etype, st)) ∧
    (process st t ⟨.ok a, .error e, sy⟩).1 = .failure e.message e.etype ∧
    get_internal_state (process st t ⟨.ok a, .error e, sy⟩).2 =
      { sim := SIM.analyze t (some a)
        contradiction := (CAM.analyze t (some a) none).contradiction_score
        mode := (SRE.regulate st.sreSt (SIM.analyze t (some a))
          (CAM.analyze t (some a) none).contradiction_score
          (CTM.calculate_trust (some a) none (some (SIM.analyze t (some a)))
            (CAM.analyze t (some a) none).contradiction_score st.ctmSt).1.trust_score).1.mode
        trust := (CTM.calculate_trust (some a) none (some (SIM.analyze t (some a)))
          (CAM.analyze t (some a) none).contradiction_score st.ctmSt).1.trust_score } :=
  ⟨fun _ _ _ => rfl, rfl, rfl⟩

end VCTT.Orchestrator

namespace VCTT.RIL

/-- If any concept in the list lacks an `id`, the node-map comprehension
raises `KeyError("id")`, whatever has been accumulated so far. -/
theorem build_nodes_error :
    ∀ (concepts : List ConceptRec) (acc : List (String × ConceptRec)),
      (∃ c ∈ concepts, c.id = none) → build_nodes concepts acc = .error "id" := by
  intro concepts
  induction concepts with
  | nil => intro acc h; simp at h
  | cons c rest ih =>
    intro acc h
    cases hid : c.id with
    | none => simp [build_nodes, hid]
    | some i =>
      rcases h with ⟨c', hc', hnone⟩
      rcases List.mem_cons.mp hc' with rfl | hmem
      · rw [hid] at hnone; cases hnone
      · simp only [build_nodes, hid]
        exact ih _ ⟨c', hmem, hnone⟩

/-- With every concept carrying an `id`, the node-map comprehension
succeeds. -/
theorem build_nodes_ok :
    ∀ (concepts : List ConceptRec) (acc : List (String × ConceptRec)),
      (∀ c ∈ concepts, c.id ≠ none) →
      ∃ ns, build_nodes concepts acc = .ok ns := by
  intro concepts
  induction concepts with
  | nil => intro acc _; exact ⟨acc, rfl⟩
  | cons c rest ih =>
    intro acc h
    cases hid : c.id with
    | none => exact absurd hid (h c (List.mem_cons_self c rest))
    | some i =>
      simp only [build_nodes, hid]
      exact ih _ (fun c' hc' => h c' (List.mem_cons_of_mem c hc'))

/-- If any relationship lacks a `source` or a `target`, the
adjacency-building loop raises `KeyError("source")` or
`KeyError("target")`. -/
theorem build_edges_error :
    ∀ (rels : List RelRec) (eacc racc : List (String × List Edge)),
      (∃ r ∈ rels, r.source = none ∨ r.target = none) →
      build_edges rels eacc racc = .error "source" ∨
        build_edges rels eacc racc = .error "target" := by
  intro rels
  induction rels with
  | nil => intro eacc racc h; simp at h
  | cons r rest ih =>
    intro eacc racc h
    cases hs : r.source with
    | none => left; simp [build_edges, hs]
    | some s =>
      cases ht : r.target with
      | none => right; simp [build_edges, hs, ht]
      | some tg =>
        rcases h with ⟨r', hr', hbad⟩
        rcases List.mem_cons.mp hr' with rfl | hmem
        · rw [hs, ht] at hbad
          rcases hbad with hbad | hbad <;> cases hbad
        · simp only [build_edges, hs, ht]
          exact ih _ _ ⟨r', hmem, hbad⟩

end VCTT.RIL

namespace VCTT

/-- Counterexample to C4: RIL's `infer` does not default missing fields; a
concept without an `id` and a relationship without a `source` each make it
raise a `KeyError` instead of returning a result. -/
theorem C4_counterexample :
    RIL.infer [⟨none, none⟩] [] = .error "id" ∧
    RIL.infer [] [⟨none, some "b", none⟩] = .error "source" := by
  constructor <;> with_unfolding_all decide

/-- C4 as amended: `RIL.infer` propagates a `KeyError` to its caller
whenever a concept record lacks `"id"`, and whenever (all concepts having
ids) some relationship record lacks `"source"` or `"target"`; the missing
fields are not defaulted. -/
theorem C4_amended_keyerror (concepts : List ConceptRec) (rels : List RelRec) :
    ((∃ c ∈ concepts, c.id = none) → RIL.infer concepts rels = .error "id") ∧
    ((∀ c ∈ concepts, c.id ≠ none) →
      (∃ r ∈ rels, r.source = none ∨ r.target = none) →
      (RIL.infer concepts rels = .error "source" ∨
        RIL.infer concepts rels = .error "target")) := by
  constructor
  · intro h
    have hn := RIL.build_nodes_error concepts [] h
    simp [RIL.infer, RIL.build_graph, hn, Bind.bind, Except.bind]
  · intro hids hbad
    obtain ⟨ns, hns⟩ := RIL.build_nodes_ok concepts [] hids
    rcases RIL.build_edges_error rels [] [] hbad with he | he
    · left
      simp [RIL.infer, RIL.build_graph, hns, he, Bind.bind, Except.bind]
    · right
      simp [RIL.infer, RIL.build_graph, hns, he, Bind.bind, Except.bind]

/-- Witness for C4's amended theorem at concrete malformed records. -/
theorem C4_amended_keyerror_witness :
    RIL.infer [⟨none, some "nameless"⟩] [] = .error "id" ∧
    (RIL.infer [] [⟨some "a", none, none⟩] = .error "source" ∨
      RIL.infer [] [⟨some "a", none, none⟩] = .error "target") :=
  ⟨(C4_amended_keyerror [⟨none, some "nameless"⟩] []).1
      ⟨⟨none, some "nameless"⟩, by simp, rfl⟩,
    (C4_amended_keyerror [] [⟨some "a", none, none⟩]).2 (by simp)
      ⟨⟨some "a", none, none⟩, by simp, Or.inr rfl⟩⟩

end VCTT

namespace VCTT

/-- C10: the transitive pass can emit several inferred edges with the same
ordered (source, target) pair — one per intermediate — because duplicate
suppression consults only the source's direct adjacency list; and each such
duplicate consumes one slot of the 10-edge limit, here crowding out the
genuinely distinct x→z edge that the untruncated enumeration contains. -/
theorem C10_duplicate_inferred_edges :
    RIL.inferredOf Examples.conceptsDup Examples.relsDup =
      .ok [⟨"A", "C", "transitive", ["A", "B", "C"], 0.6⟩,
           ⟨"A", "C", "transitive", ["A", "B2", "C"], 0.6⟩] ∧
    RIL.build_graph Examples.conceptsCrowd Examples.relsCrowd =
      .ok Examples.crowdGraph ∧
    (RIL.infer_transitive_all Examples.crowdGraph).length = 11 ∧
    RIL.infer_transitive Examples.crowdGraph = Examples.crowdOutput ∧
    (Examples.crowdOutput.length = 10 ∧
      ∀ i ∈ Examples.crowdOutput, i.source = "A" ∧ i.target = "C") ∧
    Examples.xyzInferred ∈ RIL.infer_transitive_all Examples.crowdGraph ∧
    Examples.xyzInferred ∉ Examples.crowdOutput := by
  refine ⟨?_, ?_, ?_, ?_, ?_, ?_, ?_⟩ <;> with_unfolding_all decide

end VCTT

namespace VCTT

/-- C5: whenever the analyst output reports structure validity "invalid"
and one fallacy, CAM's contradiction score for the run (computed, as in the
pipeline, from the text and the analyst output alone) is strictly positive,
and whatever SIM metrics and trust score the run produces, the mode SRE
computes is `clarify` or `slow_down`, never `normal`. -/
theorem C5_invalid_analyst_blocks_normal (t : TextStats) (a : AnalystOutput)
    (hv : ((a.result.getD default).struct.getD default).validity = some "invalid")
    (hf : ((a.result.getD default).fallacies.getD []).length = 1) :
    0 < (CAM.analyze t (some a) none).contradiction_score ∧
    ∀ (st : SRE.State) (m : SIM.Metrics) (ts : ℚ),
      (SRE.regulate st m (CAM.analyze t (some a) none).contradiction_score ts).1.mode =
          .clarify ∨
      (SRE.regulate st m (CAM.analyze t (some a) none).contradiction_score ts).1.mode =
          .slow_down := by
  have hmem : (⟨"logical", (0.7 : ℚ)⟩ : CAM.Contradiction) ∈
      (CAM.analyze t (some a) none).contradictions := by
    have : (⟨"logical", (0.7 : ℚ)⟩ : CAM.Contradiction) ∈
        CAM.detect_logical_contradictions a := by
      simp [CAM.detect_logical_contradictions, hv]
    simp only [CAM.analyze, List.mem_append]
    exact Or.inl (Or.inr this)
  have hne : ¬ ((CAM.analyze t (some a) none).contradictions).isEmpty := by
    intro h
    rw [List.isEmpty_iff] at h
    rw [h] at hmem
    simp at hmem
  have hscore : (0.45 : ℚ) ≤ (CAM.analyze t (some a) none).contradiction_score := by
    have := CAM.calculate_score_lb (CAM.analyze t (some a) none).contradictions hne
      (CAM.analyze_severity_lb t (some a) none)
    exact this
  have hpos : 0 < (CAM.analyze t (some a) none).contradiction_score :=
    lt_of_lt_of_le (by norm_num) hscore
  have h04 : (0.4 : ℚ) < (CAM.analyze t (some a) none).contradiction_score :=
    lt_of_lt_of_le (by norm_num) hscore
  refine ⟨hpos, ?_⟩
  intro st m ts
  have hmode : (SRE.regulate st m (CAM.analyze t (some a) none).contradiction_score
      ts).1.mode =
      SRE.determine_mode m (CAM.analyze t (some a) none).contradiction_score ts := rfl
  rw [hmode]
  unfold SRE.determine_mode
  cases hs : SRE.slow_condition m (CAM.analyze t (some a) none).contradiction_score ts
  · have hc : SRE.clarify_condition m
        (CAM.analyze t (some a) none).contradiction_score ts = true := by
      simp [SRE.clarify_condition, h04]
    simp [hc]
  · simp

/-- Witness for C5 at the concrete invalid-analyst producer output and the
empty text. -/
theorem C5_invalid_analyst_blocks_normal_witness :
    0 < (CAM.analyze TextStats.zero (some Examples.invalidAnalyst)
        none).contradiction_score ∧
    ((SRE.regulate SRE.State.init SIM.Metrics.zero
        (CAM.analyze TextStats.zero (some Examples.invalidAnalyst)
          none).contradiction_score 0.5).1.mode = .clarify ∨
      (SRE.regulate SRE.State.init SIM.Metrics.zero
        (CAM.analyze TextStats.zero (some Examples.invalidAnalyst)
          none).contradiction_score 0.5).1.mode = .slow_down) := by
  have h := C5_invalid_analyst_blocks_normal TextStats.zero Examples.invalidAnalyst
    (by decide) (by decide)
  exact ⟨h.1, h.2 SRE.State.init SIM.Metrics.zero 0.5⟩

end VCTT

namespace VCTT.CAM

/-- A successful lookup's key-value pair is in the list. -/
theorem alookup_mem {κ β : Type} [DecidableEq κ] {k : κ} {v : β} :
    ∀ {d : List (κ × β)}, alookup k d = some v → (k, v) ∈ d := by
  intro d
  induction d with
  | nil => intro h; simp [alookup] at h
  | cons hd tl ih =>
    obtain ⟨k1, v1⟩ := hd
    intro h
    by_cases hk : k1 = k
    · subst hk
      simp only [alookup, if_pos rfl] at h
      cases h
      exact List.mem_cons_self _ _
    · simp only [alookup, hk, if_neg, if_false] at h
      exact List.mem_cons_of_mem _ (ih h)

/-- A lookup fails exactly when the key is absent from the key list. -/
theorem alookup_eq_none {κ β : Type} [DecidableEq κ] {k : κ} :
    ∀ {d : List (κ × β)}, alookup k d = none ↔ k ∉ d.map Prod.fst := by
  intro d
  induction d with
  | nil => simp [alookup]
  | cons hd tl ih =>
    obtain ⟨k1, v1⟩ := hd
    by_cases hk : k1 = k
    · subst hk; simp [alookup]
    · have hk' : ¬ k = k1 := fun h => hk h.symm
      simp [alookup, hk, hk', ih]

/-- With no duplicate keys, membership determines the lookup. -/
theorem mem_alookup {κ β : Type} [DecidableEq κ] {k : κ} {v : β} :
    ∀ {d : List (κ × β)}, (d.map Prod.fst).Nodup → (k, v) ∈ d →
      alookup k d = some v := by
  intro d
  induction d with
  | nil => intro _ h; simp at h
  | cons hd tl ih =>
    obtain ⟨k1, v1⟩ := hd
    intro hnd hmem
    rw [List.map_cons, List.nodup_cons] at hnd
    rcases List.mem_cons.mp hmem with heq | hmem'
    · cases heq
      simp [alookup]
    · have hk : k1 ≠ k := by
        intro hk
        subst hk
        exact hnd.1 (List.mem_map.mpr ⟨(k1, v), hmem', rfl⟩)
      simp only [alookup, hk, if_neg, if_false]
      exact ih hnd.2 hmem'

/-- Keys after an insert-or-update: the old keys plus possibly the new
key. -/
theorem mem_keys_aset {κ β : Type} [DecidableEq κ] (k k'' : κ) (v : β) :
    ∀ (d : List (κ × β)),
      k'' ∈ (aset k v d).map Prod.fst ↔ k'' ∈ d.map Prod.fst ∨ k'' = k := by
  intro d
  induction d with
  | nil => simp [aset]
  | cons hd tl ih =>
    obtain ⟨k1, v1⟩ := hd
    by_cases hk : k1 = k
    · subst hk
      simp [aset]
      tauto
    · simp [aset, hk, ih]
      tauto

/-- Insert-or-update preserves key distinctness. -/
theorem nodup_keys_aset {κ β : Type} [DecidableEq κ] (k : κ) (v : β) :
    ∀ {d : List (κ × β)}, (d.map Prod.fst).Nodup →
      ((aset k v d).map Prod.fst).Nodup := by
  intro d
  induction d with
  | nil => intro _; simp [aset]
  | cons hd tl ih =>
    obtain ⟨k1, v1⟩ := hd
    intro hnd
    rw [List.map_cons, List.nodup_cons] at hnd
    by_cases hk : k1 = k
    · subst hk
      have ha : aset k1 v ((k1, v1) :: tl) = (k1, v) :: tl := by simp [aset]
      rw [ha, List.map_cons, List.nodup_cons]
      exact hnd
    · simp only [aset, hk, if_neg, if_false, List.map_cons, List.nodup_cons]
      refine ⟨?_, ih hnd.2⟩
      rw [mem_keys_aset]
      rintro (h | h)
      · exact hnd.1 h
      · exact hk h

end VCTT.CAM

namespace VCTT.RIL

/-- Appending an edge to a dict-of-lists entry preserves key
distinctness. -/
theorem nodup_keys_append_edge (k : String) (e : Edge)
    {d : List (String × List Edge)} (hnd : NodupKeys d) :
    NodupKeys (append_edge k e d) := by
  unfold append_edge
  cases h : CAM.alookup k d with
  | some l => exact CAM.nodup_keys_aset k (l ++ [e]) hnd
  | none =>
    have hk : k ∉ keys d := CAM.alookup_eq_none.mp h
    unfold NodupKeys keys at hnd ⊢
    rw [List.map_append, List.nodup_append]
    refine ⟨hnd, List.nodup_singleton k, ?_⟩
    intro a ha hb
    simp only [List.map_cons, List.map_nil, List.mem_singleton] at hb
    subst hb
    exact hk ha

/-- The adjacency-building loop keeps forward-adjacency keys distinct. -/
theorem nodup_keys_build_edges :
    ∀ (rels : List RelRec) (eacc racc : List (String × List Edge))
      (res : List (String × List Edge) × List (String × List Edge)),
      NodupKeys eacc → build_edges rels eacc racc = .ok res →
      NodupKeys res.1 := by
  intro rels
  induction rels with
  | nil =>
    intro eacc racc res hnd h
    simp only [build_edges] at h
    cases h
    exact hnd
  | cons r rest ih =>
    intro eacc racc res hnd h
    cases hs : r.source with
    | none => rw [build_edges, hs] at h; cases h
    | some s =>
      cases ht : r.target with
      | none => rw [build_edges, hs, ht] at h; cases h
      | some tg =>
        rw [build_edges, hs, ht] at h
        exact ih _ _ res (nodup_keys_append_edge s ⟨s, tg⟩ hnd) h

/-- A successfully built graph has distinct forward-adjacency keys. -/
theorem nodup_keys_build_graph {concepts : List ConceptRec}
    {rels : List RelRec} {g : Graph}
    (h : build_graph concepts rels = .ok g) : NodupKeys g.edges := by
  unfold build_graph at h
  cases hn : build_nodes concepts [] with
  | error k => rw [hn] at h; cases h
  | ok ns =>
    rw [hn] at h
    cases hes : build_edges rels [] [] with
    | error k =>
      rw [hes] at h
      cases h
    | ok p =>
      rw [hes] at h
      have hnd := nodup_keys_build_edges rels [] [] p (by simp [NodupKeys, keys]) hes
      cases h
      exact hnd

end VCTT.RIL

namespace VCTT.RIL

/-- Membership characterization of the untruncated transitive enumeration:
an inferred A→C record through B appears exactly when A has a direct edge
to B, B has a direct edge to C, C differs from A, and no direct edge of A
reaches C. -/
theorem mem_infer_transitive_all {g : Graph} (hg : NodupKeys g.edges)
    (A B C : String) :
    (⟨A, C, "transitive", [A, B, C], 0.6⟩ : InfRel) ∈ infer_transitive_all g ↔
      ((∃ e ∈ edges_of g A, e.target = B) ∧
        (∃ e ∈ edges_of g B, e.target = C) ∧
        C ≠ A ∧ ∀ e ∈ edges_of g A, e.target ≠ C) := by
  constructor
  · intro h
    simp only [infer_transitive_all, List.mem_flatMap, List.mem_filterMap] at h
    obtain ⟨p, hp, e, he, ne, hne, hcond⟩ := h
    split_ifs at hcond with hc
    · injection hcond with hcond
      rw [InfRel.mk.injEq] at hcond
      obtain ⟨hA, hC, -, hpath, -⟩ := hcond
      simp only [List.cons.injEq, and_true] at hpath
      have hB : e.target = B := hpath.2.1
      have hmemA : (A, p.2) ∈ g.edges := by
        rw [← hA]
        simpa using hp
      have hEA : edges_of g A = p.2 := by
        unfold edges_of
        rw [CAM.mem_alookup hg hmemA]
        rfl
      refine ⟨⟨e, by rw [hEA]; exact he, hB⟩, ⟨ne, ?_, hC⟩, ?_, ?_⟩
      · rw [hB] at hne
        exact hne
      · rw [← hC, ← hA]
        exact hc.1
      · intro e' he' hEq
        apply hc.2
        simp only [List.any_eq_true, decide_eq_true_eq]
        refine ⟨e', by rw [hEA] at he'; exact he', ?_⟩
        rw [hEq]
        exact hC.symm
  · rintro ⟨⟨e1, he1, ht1⟩, ⟨e2, he2, ht2⟩, hCA, hnd⟩
    cases hA : CAM.alookup A g.edges with
    | none =>
      rw [edges_of, hA] at he1
      simp at he1
    | some sEdges =>
      have hgetA : edges_of g A = sEdges := by rw [edges_of, hA]; rfl
      rw [hgetA] at he1 hnd
      have hmem : (A, sEdges) ∈ g.edges := CAM.alookup_mem hA
      simp only [infer_transitive_all, List.mem_flatMap, List.mem_filterMap]
      refine ⟨(A, sEdges), hmem, e1, he1, e2, ?_, ?_⟩
      · rw [ht1]
        exact he2
      · have hcond : e2.target ≠ (A, sEdges).1 ∧
            ¬ sEdges.any (fun d => d.target = e2.target) := by
          constructor
          · rw [ht2]; exact hCA
          · intro hany
            simp only [List.any_eq_true, decide_eq_true_eq] at hany
            obtain ⟨d, hd, hdt⟩ := hany
            exact hnd d hd (by rw [hdt, ht2])
        rw [if_pos hcond, ht1, ht2]

end VCTT.RIL

namespace VCTT

/-- C8: on every successfully built graph, the transitive pass enumerates
exactly the A→C records through some B where A reaches B directly, B
reaches C directly, C is not A, and no direct edge of A reaches C, in
first-found order truncated to at most 10 records; on concepts [A,B,C]
with A→B and B→C it infers A→C with path [A,B,C], and infers nothing when
a direct A→C relationship is present. -/
theorem C8_transitive_inference :
    (∀ (concepts : List ConceptRec) (rels : List RelRec) (g : RIL.Graph),
      RIL.build_graph concepts rels = .ok g →
      ((∀ A B C : String,
        ((⟨A, C, "transitive", [A, B, C], 0.6⟩ : RIL.InfRel) ∈
            RIL.infer_transitive_all g ↔
          ((∃ e ∈ RIL.edges_of g A, e.target = B) ∧
            (∃ e ∈ RIL.edges_of g B, e.target = C) ∧
            C ≠ A ∧ ∀ e ∈ RIL.edges_of g A, e.target ≠ C))) ∧
        RIL.infer_transitive g = (RIL.infer_transitive_all g).take 10 ∧
        (RIL.infer_transitive g).length ≤ 10)) ∧
    RIL.inferredOf Examples.conceptsABC Examples.relsChain =
      .ok [⟨"A", "C", "transitive", ["A", "B", "C"], 0.6⟩] ∧
    RIL.inferredOf Examples.conceptsABC Examples.relsChainDirect = .ok [] := by
  refine ⟨?_, ?_, ?_⟩
  · intro concepts rels g hg
    refine ⟨fun A B C =>
      RIL.mem_infer_transitive_all (RIL.nodup_keys_build_graph hg) A B C, rfl, ?_⟩
    calc (RIL.infer_transitive g).length
        = ((RIL.infer_transitive_all g).take 10).length := rfl
      _ ≤ 10 := by
          rw [List.length_take]
          exact min_le_left _ _
  · with_unfolding_all decide
  · with_unfolding_all decide

/-- Witness for C8's characterization at the concrete built chain graph. -/
theorem C8_transitive_inference_witness :
    (⟨"A", "C", "transitive", ["A", "B", "C"], 0.6⟩ : RIL.InfRel) ∈
      RIL.infer_transitive_all Examples.chainGraph :=
  ((C8_transitive_inference.1 Examples.conceptsABC Examples.relsChain
      Examples.chainGraph (by with_unfolding_all decide)).1 "A" "B" "C").mpr
    (by with_unfolding_all decide)

end VCTT
